import Mathlib

/-!
Verification of the voting / match-detection engine of the would-watch
backend (Go).  The Go repository stores state in PostgreSQL; here the
relevant tables are shallowly embedded as Lean lists of rows, and each
repository method or handler becomes a pure Lean function mirroring the
SQL statement or the Go control flow.  External effects (database faults,
the OpenAI oracle, the TMDB metadata provider) are supplied as explicit
outcome parameters so every path of the Go code is representable.
-/

namespace WouldWatch

/-- A row of the `session_votes` table
(`src/internal/database/vote_repository.go`, `Vote` struct; ids are
UUIDs in Go, abstracted as `Nat` here; `createdAt` abstracts the
`TIMESTAMPTZ` column). -/
structure Vote where
  sessionId : Nat
  userId : Nat
  mediaId : Nat
  vote : String
  createdAt : Nat
deriving Repr, DecidableEq

/-- A row of the `media_items` table
(`src/internal/database/media_repository.go`, `MediaItem` struct). -/
structure MediaItem where
  id : Nat
  tmdbId : Int
  mediaType : String
  title : String
  metadata : String
  createdAt : Nat
  updatedAt : Nat
deriving Repr, DecidableEq

/-- A row of the `watch_sessions` table (`WatchSession` struct in the
session repository). -/
structure WatchSession where
  id : Nat
  creatorId : Nat
  status : String
  createdAt : Nat
  updatedAt : Nat
  completedAt : Option Nat
deriving Repr, DecidableEq

/-- The durable store visible to the voting engine: the three tables the
claims touch. -/
structure AppState where
  sessions : List WatchSession
  votes : List Vote
  media : List MediaItem
deriving Repr, DecidableEq

/-- The key of the `unique_user_media_session` constraint
(`src/db/schema.sql`): one vote row per (session, user, media) triple. -/
def Vote.key (r : Vote) : Nat × Nat × Nat :=
  (r.sessionId, r.userId, r.mediaId)

/-- Does this row belong to the given (session, user, media) triple? -/
def Vote.matchesTriple (r : Vote) (s u m : Nat) : Bool :=
  r.sessionId == s && r.userId == u && r.mediaId == m

/-- The table invariant enforced by `unique_user_media_session`: keys of
vote rows are pairwise distinct. -/
def votesWF (votes : List Vote) : Prop :=
  (votes.map Vote.key).Nodup

/-- `VoteRepository.CastVote`: `INSERT ... ON CONFLICT (session_id,
user_id, media_id) DO UPDATE SET vote = EXCLUDED.vote, created_at =
NOW()`.  If a row for the triple exists its vote and timestamp are
replaced in place, otherwise a fresh row is appended. -/
def castVote (votes : List Vote) (s u m : Nat) (v : String) (now : Nat) :
    List Vote :=
  if votes.any (fun r => r.matchesTriple s u m) then
    votes.map fun r =>
      if r.matchesTriple s u m then { r with vote := v, createdAt := now } else r
  else
    votes ++ [⟨s, u, m, v, now⟩]

/-- The rows currently stored for one (session, user, media) triple. -/
def rowsFor (votes : List Vote) (s u m : Nat) : List Vote :=
  votes.filter fun r => r.matchesTriple s u m

/-- `VoteRepository.CheckMatch`'s `SELECT COUNT(*) ... WHERE session_id =
$1 AND media_id = $2 AND vote = 'yes'`: the number of yes-vote rows for
the media item in the session. -/
def countYesVotes (votes : List Vote) (s m : Nat) : Nat :=
  (votes.filter fun r => r.sessionId == s && r.mediaId == m && r.vote == "yes").length

/-- `VoteRepository.CheckMatch`: true iff the yes-row count is at least 2. -/
def checkMatch (votes : List Vote) (s m : Nat) : Bool :=
  decide (2 ≤ countYesVotes votes s m)

/-- User `u` holds a current "yes" vote for media `m` in session `s`:
the row-level reading of one term of `CheckMatch`'s `COUNT(*)`. -/
def hasYesVote (votes : List Vote) (s u m : Nat) : Prop :=
  ∃ r ∈ votes, r.sessionId = s ∧ r.userId = u ∧ r.mediaId = m ∧ r.vote = "yes"

/-- Insertion step of the `ORDER BY m.title` sort. -/
def insertByTitle (x : MediaItem) : List MediaItem → List MediaItem
  | [] => [x]
  | y :: ys => if x.title ≤ y.title then x :: y :: ys else y :: insertByTitle x ys

/-- Sorting a list of media rows by title ascending, the effect of
`ORDER BY m.title` in the match query. -/
def sortByTitle : List MediaItem → List MediaItem
  | [] => []
  | x :: xs => insertByTitle x (sortByTitle xs)

/-- `VoteRepository.GetMatchesForSession`: joins `media_items` with the
yes votes of the session, groups per media row, keeps the groups with
`COUNT(sv.user_id) >= 2` and orders by title.  Each group of the SQL
`GROUP BY m.id, ...` is one row of the `media` table, and its count is
the number of yes-vote rows referencing that row in the session. -/
def getMatchesForSession (st : AppState) (s : Nat) : List MediaItem :=
  sortByTitle (st.media.filter fun item => 2 ≤ countYesVotes st.votes s item.id)

/-- Insertion step of the alphabetical title sort used for liked titles. -/
def insertString (x : String) : List String → List String
  | [] => [x]
  | y :: ys => if x ≤ y then x :: y :: ys else y :: insertString x ys

/-- Sorting a list of strings ascending. -/
def sortStrings : List String → List String
  | [] => []
  | x :: xs => insertString x (sortStrings xs)

/-- Modelled from the spec: `VoteRepository.GetLikedMovies` (the
`ListLikedTitles` operation) is called from
`src/internal/service/recommendation.go` and exercised by
`TestVoteRepository_GetLikedMovies`, but its body is not among the
source files.  Per the spec it "returns the distinct set of titles with
at least one current yes vote in the session", ordered alphabetically,
each title once. -/
def getLikedMovies (st : AppState) (s : Nat) : List String :=
  sortStrings
    (((st.media.filter fun item => 1 ≤ countYesVotes st.votes s item.id).map
      MediaItem.title).dedup)

/-- `SessionRepository.GetSessionByID`: the session row with the given
id, if any. -/
def getSessionByID (sessions : List WatchSession) (sessionId : Nat) :
    Option WatchSession :=
  sessions.find? fun s => s.id == sessionId

/-- `SessionRepository.CompleteSession` (`UPDATE watch_sessions SET
status = 'completed' WHERE id = $1 RETURNING ...`): sets the status of
the matching row to completed and returns the updated row; when no row
matches (`sql.ErrNoRows`) the Go method returns `(nil, nil)`, a no-op
success with no session. -/
def completeSession (sessions : List WatchSession) (sessionId : Nat) :
    Option WatchSession × List WatchSession :=
  let updated := sessions.map fun s =>
    if s.id == sessionId then { s with status := "completed" } else s
  (updated.find? fun s => s.id == sessionId, updated)

/-- The vote-value validation of `VoteHandler.CastVote`:
`req.Vote != "yes" && req.Vote != "no" && req.Vote != "maybe"` rejects. -/
def validVote (v : String) : Bool :=
  v == "yes" || v == "no" || v == "maybe"

/-- Outcome of the HTTP handler, abstracting `http.Error` calls and the
JSON success response. -/
inductive HandlerResult where
  /-- An `http.Error` with a 4xx status: message and status code. -/
  | clientError (msg : String) (code : Nat)
  /-- An `http.Error` with status 500. -/
  | serverError (msg : String)
  /-- The JSON body `{success, is_match}` (`VoteResponse`). -/
  | ok (success : Bool) (isMatch : Bool)
deriving Repr, DecidableEq

/-- Result of one `VoteHandler.CastVote` request: the HTTP outcome, the
state it leaves behind, and whether the match-count query
(`CheckMatch`) was issued. -/
structure HandlerOutcome where
  result : HandlerResult
  state : AppState
  matchQueried : Bool
deriving Repr, DecidableEq

/-- External faults a single request can hit: a database error on the
session lookup, on the vote upsert, or on the match-count query. -/
structure DbFaults where
  sessionLookupErr : Bool
  castErr : Bool
  checkMatchErr : Bool
deriving Repr, DecidableEq

/-- `VoteHandler.CastVote` from the vote-value validation on (the
earlier steps — method check, auth, URL and JSON parsing — only shape
the request, which arrives here already parsed).  Mirrors the Go order:
validate the value, load the session, reject missing or non-active
sessions, upsert the vote, and compute `is_match` only for a "yes" vote,
swallowing a failed match check into `is_match = false`. -/
def castVoteHandler (st : AppState) (sessionId userId mediaId : Nat)
    (vote : String) (now : Nat) (faults : DbFaults) : HandlerOutcome :=
  if !validVote vote then
    ⟨.clientError "Vote must be 'yes', 'no', or 'maybe'" 400, st, false⟩
  else if faults.sessionLookupErr then
    ⟨.serverError "Failed to get session", st, false⟩
  else
    match getSessionByID st.sessions sessionId with
    | none => ⟨.clientError "Session not found" 404, st, false⟩
    | some session =>
      if session.status != "active" then
        ⟨.clientError "Session is not active" 400, st, false⟩
      else if faults.castErr then
        ⟨.serverError "Failed to cast vote", st, false⟩
      else
        let st' := { st with votes := castVote st.votes sessionId userId mediaId vote now }
        if vote == "yes" then
          let isMatch :=
            if faults.checkMatchErr then false
            else checkMatch st'.votes sessionId mediaId
          ⟨.ok true isMatch, st', true⟩
        else
          ⟨.ok true false, st', false⟩

/-- `tmdb.Movie`, abstracted to an id, a title and an opaque blob for the
remaining metadata fields (overview, artwork paths, float ratings, ...)
that the orchestrator never branches on. -/
structure Movie where
  id : Int
  title : String
  metadata : String
deriving Repr, DecidableEq

/-- Outcome of the OpenAI HTTP exchange in `Client.GetRecommendations`
(`src/internal/openai/client.go`), abstracting the transport and JSON
layers: the request can fail on the wire, return a non-200 status,
return a body that does not parse into a non-empty choice list with a
JSON integer-array content, or parse into a list of TMDB ids. -/
inductive OracleResponse where
  /-- `c.client.Do(req)` returned an error. -/
  | networkFailure
  /-- `resp.StatusCode != http.StatusOK` (the non-200 code). -/
  | httpError (code : Nat)
  /-- Body undecodable, zero choices, or content not a JSON int array. -/
  | badBody
  /-- Parsed successfully into this id list (possibly empty). -/
  | ids (l : List Int)
deriving Repr, DecidableEq

/-- `Client.GetRecommendations`: rejects an empty liked list up front,
then maps each exchange outcome to the error the Go code returns, and
rejects an empty parsed id list. -/
def clientGetRecommendations (likedMovies : List String)
    (resp : OracleResponse) : Except String (List Int) :=
  if likedMovies.isEmpty then .error "no liked movies provided"
  else
    match resp with
    | .networkFailure => .error "failed to execute request"
    | .httpError code => .error ("API returned status " ++ toString code)
    | .badBody => .error "failed to parse TMDB IDs from response"
    | .ids l =>
      if l.isEmpty then .error "no TMDB IDs returned" else .ok l

/-- External outcomes of resolving one recommended candidate in
`RecommendationService.GenerateRecommendations`: the first
`GetMediaByTMDBID` lookup, the `tmdbClient.GetMovieByID` fetch, the
`CacheMovie` write, and the re-fetch `GetMediaByTMDBID` after caching.
`Except Unit` models success versus a database / network error. -/
structure CandidateStep where
  lookupResult : Except Unit (Option MediaItem)
  fetchResult : Except Unit Movie
  cacheResult : Except Unit Nat
  refetchResult : Except Unit (Option MediaItem)
deriving Repr

/-- One iteration of the candidate loop of `GenerateRecommendations`:
a failed first lookup is only logged (`existing` stays nil), a cached
record is returned directly, a failed TMDB fetch skips the candidate, a
failed cache write is only logged, and the candidate is included iff the
re-fetch finds a saved record. -/
def processCandidate (stp : CandidateStep) : Option MediaItem :=
  let existing : Option MediaItem :=
    match stp.lookupResult with
    | .error _ => none
    | .ok e => e
  match existing with
  | some item => some item
  | none =>
    match stp.fetchResult with
    | .error _ => none
    | .ok _movie =>
      match stp.refetchResult with
      | .ok (some saved) => some saved
      | _ => none

/-- The candidate loop of `GenerateRecommendations`, in the order the
oracle returned the ids; `env i id` supplies the external outcomes of
the candidate at position `i` with TMDB id `id`. -/
def processCandidates (env : Nat → Int → CandidateStep) :
    List Int → Nat → List MediaItem
  | [], _ => []
  | tmdbId :: rest, i =>
    match processCandidate (env i tmdbId) with
    | some item => item :: processCandidates env rest (i + 1)
    | none => processCandidates env rest (i + 1)

/-- `RecommendationService.GenerateRecommendations`, paired with a flag
recording whether `openaiClient.GetRecommendations` was invoked: read
the liked titles, short-circuit to an empty list when there are none,
fail hard when the oracle call fails, and otherwise resolve the
candidates in order. -/
def generateRecommendations (st : AppState) (sessionId : Nat)
    (resp : OracleResponse) (env : Nat → Int → CandidateStep) :
    Except String (List MediaItem) × Bool :=
  let likedTitles := getLikedMovies st sessionId
  if likedTitles.isEmpty then (.ok [], false)
  else
    match clientGetRecommendations likedTitles resp with
    | .error e => (.error ("failed to get openai recommendations: " ++ e), true)
    | .ok tmdbIDs => (.ok (processCandidates env tmdbIDs 0), true)

/-! ## Helper lemmas -/

lemma insertByTitle_perm (x : MediaItem) (l : List MediaItem) :
    List.Perm (insertByTitle x l) (x :: l) := by
  induction l with
  | nil => rfl
  | cons y ys ih =>
    simp only [insertByTitle]
    by_cases h : x.title ≤ y.title
    · rw [if_pos h]
    · rw [if_neg h]
      exact (ih.cons y).trans (List.Perm.swap x y ys)

lemma sortByTitle_perm (l : List MediaItem) : List.Perm (sortByTitle l) l := by
  induction l with
  | nil => rfl
  | cons x xs ih =>
    exact (insertByTitle_perm x (sortByTitle xs)).trans (ih.cons x)

lemma mem_sortByTitle (a : MediaItem) (l : List MediaItem) :
    a ∈ sortByTitle l ↔ a ∈ l :=
  (sortByTitle_perm l).mem_iff

lemma pairwise_insertByTitle (x : MediaItem) (l : List MediaItem)
    (h : l.Pairwise fun a b => a.title ≤ b.title) :
    (insertByTitle x l).Pairwise fun a b => a.title ≤ b.title := by
  induction l with
  | nil => simp [insertByTitle]
  | cons y ys ih =>
    rw [List.pairwise_cons] at h
    simp only [insertByTitle]
    by_cases hxy : x.title ≤ y.title
    · rw [if_pos hxy, List.pairwise_cons]
      refine ⟨?_, List.pairwise_cons.mpr h⟩
      intro z hz
      rcases List.mem_cons.mp hz with hz | hz
      · exact hz ▸ hxy
      · exact le_trans hxy (h.1 z hz)
    · rw [if_neg hxy, List.pairwise_cons]
      refine ⟨?_, ih h.2⟩
      intro z hz
      rcases List.mem_cons.mp ((insertByTitle_perm x ys).mem_iff.mp hz) with hz | hz
      · subst hz; exact le_of_not_le hxy
      · exact h.1 z hz

lemma pairwise_sortByTitle (l : List MediaItem) :
    (sortByTitle l).Pairwise fun a b => a.title ≤ b.title := by
  induction l with
  | nil => simp [sortByTitle]
  | cons x xs ih => exact pairwise_insertByTitle x (sortByTitle xs) ih

lemma insertString_perm (x : String) (l : List String) :
    List.Perm (insertString x l) (x :: l) := by
  induction l with
  | nil => rfl
  | cons y ys ih =>
    simp only [insertString]
    by_cases h : x ≤ y
    · rw [if_pos h]
    · rw [if_neg h]
      exact (ih.cons y).trans (List.Perm.swap x y ys)

lemma sortStrings_perm (l : List String) : List.Perm (sortStrings l) l := by
  induction l with
  | nil => rfl
  | cons x xs ih =>
    exact (insertString_perm x (sortStrings xs)).trans (ih.cons x)

lemma pairwise_insertString (x : String) (l : List String)
    (h : l.Pairwise fun a b => a ≤ b) :
    (insertString x l).Pairwise fun a b => a ≤ b := by
  induction l with
  | nil => simp [insertString]
  | cons y ys ih =>
    rw [List.pairwise_cons] at h
    simp only [insertString]
    by_cases hxy : x ≤ y
    · rw [if_pos hxy, List.pairwise_cons]
      refine ⟨?_, List.pairwise_cons.mpr h⟩
      intro z hz
      rcases List.mem_cons.mp hz with hz | hz
      · exact hz ▸ hxy
      · exact le_trans hxy (h.1 z hz)
    · rw [if_neg hxy, List.pairwise_cons]
      refine ⟨?_, ih h.2⟩
      intro z hz
      rcases List.mem_cons.mp ((insertString_perm x ys).mem_iff.mp hz) with hz | hz
      · subst hz; exact le_of_not_le hxy
      · exact h.1 z hz

lemma pairwise_sortStrings (l : List String) :
    (sortStrings l).Pairwise fun a b => a ≤ b := by
  induction l with
  | nil => simp [sortStrings]
  | cons x xs ih => exact pairwise_insertString x (sortStrings xs) ih

lemma two_le_length_of_mem_ne {α : Type} {l : List α} {a b : α}
    (ha : a ∈ l) (hb : b ∈ l) (hab : a ≠ b) : 2 ≤ l.length := by
  cases l with
  | nil => cases ha
  | cons x t =>
    cases t with
    | nil =>
      rw [List.mem_singleton] at ha hb
      exact absurd (ha.trans hb.symm) hab
    | cons y u =>
      have h2 : (x :: y :: u).length = u.length + 2 := by simp
      omega

lemma matchesTriple_self (s u m : Nat) (v : String) (now : Nat) :
    (Vote.mk s u m v now).matchesTriple s u m = true := by
  simp [Vote.matchesTriple]

lemma filter_map_update (votes : List Vote) (s u m : Nat) (v : String)
    (now : Nat) :
    ((votes.map fun r =>
        if r.matchesTriple s u m then { r with vote := v, createdAt := now }
        else r).filter
      fun r => r.matchesTriple s u m)
      = List.replicate (votes.filter fun r => r.matchesTriple s u m).length
          ⟨s, u, m, v, now⟩ := by
  induction votes with
  | nil => simp
  | cons r rest ih =>
    rcases r with ⟨rs, ru, rm, rv, rc⟩
    by_cases hr : (Vote.mk rs ru rm rv rc).matchesTriple s u m
    · obtain ⟨hs, hu, hm⟩ : rs = s ∧ ru = u ∧ rm = m := by
        simpa [Vote.matchesTriple, and_assoc] using hr
      subst hs; subst hu; subst hm
      simp only [List.map_cons, List.filter_cons, hr, if_true, matchesTriple_self,
        List.length_cons, List.replicate_succ]
      rw [ih]
    · have hr' : (Vote.mk rs ru rm rv rc).matchesTriple s u m = false :=
        Bool.eq_false_iff.mpr hr
      simp only [List.map_cons, hr', if_false, Bool.false_eq_true]
      rw [List.filter_cons_of_neg (by simp [hr']), List.filter_cons_of_neg (by simp [hr'])]
      exact ih

lemma rowsFor_castVote (votes : List Vote) (s u m : Nat) (v : String)
    (now : Nat) (h : (rowsFor votes s u m).length ≤ 1) :
    rowsFor (castVote votes s u m v now) s u m = [⟨s, u, m, v, now⟩] := by
  unfold castVote
  by_cases hany : votes.any (fun r => r.matchesTriple s u m)
  · rw [if_pos hany]
    unfold rowsFor
    rw [filter_map_update]
    obtain ⟨r, hrmem, hr⟩ := List.any_eq_true.mp hany
    have hpos : 0 < (votes.filter fun r => r.matchesTriple s u m).length :=
      List.length_pos_of_mem (List.mem_filter.mpr ⟨hrmem, hr⟩)
    have hone : (votes.filter fun r => r.matchesTriple s u m).length = 1 := by
      unfold rowsFor at h
      omega
    rw [hone]
    rfl
  · rw [if_neg hany]
    unfold rowsFor
    rw [List.filter_append]
    have hnil : votes.filter (fun r => r.matchesTriple s u m) = [] := by
      rw [List.filter_eq_nil_iff]
      intro a ha
      exact fun hp => hany (List.any_eq_true.mpr ⟨a, ha, hp⟩)
    rw [hnil]
    simp [matchesTriple_self]

/-- C2: for every (session, user, media) triple and every non-empty
sequence of `CastVote` calls on that triple, the table afterwards holds
exactly one row for the triple and its vote equals the last call's
value: the `ON CONFLICT ... DO UPDATE` upsert replaces in place and
never creates a second row, so repeated "yes" casts by one user never
inflate the yes-count.  The hypothesis — at most one pre-existing row
for the triple — is the `unique_user_media_session` constraint. -/
theorem castVote_single_row_last_value (votes : List Vote) (s u m : Nat)
    (vs : List (String × Nat)) (hne : vs ≠ [])
    (h1 : (rowsFor votes s u m).length ≤ 1) :
    rowsFor (vs.foldl (fun acc pv => castVote acc s u m pv.1 pv.2) votes) s u m
      = [⟨s, u, m, (vs.getLast hne).1, (vs.getLast hne).2⟩] := by
  induction vs generalizing votes with
  | nil => exact absurd rfl hne
  | cons p rest ih =>
    cases rest with
    | nil =>
      simp only [List.foldl_cons, List.foldl_nil, List.getLast_singleton]
      exact rowsFor_castVote votes s u m p.1 p.2 h1
    | cons q rs =>
      have hstep := rowsFor_castVote votes s u m p.1 p.2 h1
      have h1' : (rowsFor (castVote votes s u m p.1 p.2) s u m).length ≤ 1 := by
        rw [hstep]; simp
      have hrest : (q :: rs : List (String × Nat)) ≠ [] := by simp
      have := ih (castVote votes s u m p.1 p.2) hrest h1'
      simpa [List.foldl_cons, List.getLast_cons hrest] using this

/-- Witness for C2 at a concrete input: two casts ("yes" then "no") on
an initially empty table leave exactly one row holding "no". -/
theorem castVote_single_row_last_value_witness :
    rowsFor
      (([("yes", 0), ("no", 1)] : List (String × Nat)).foldl
        (fun acc pv => castVote acc 1 2 3 pv.1 pv.2) [])
      1 2 3 = [⟨1, 2, 3, "no", 1⟩] := by
  have h := castVote_single_row_last_value [] 1 2 3 [("yes", 0), ("no", 1)]
    (by decide) (by decide)
  simpa using h

/-- C1: under the `unique_user_media_session` table invariant,
`CheckMatch` answers true exactly when at least two distinct users hold
a current "yes" vote for the media item in the session, and a media row
is listed by `GetMatchesForSession` exactly when `CheckMatch` holds for
it — the threshold is the absolute constant 2 (participants never
enter either definition). -/
theorem checkMatch_two_distinct_iff_listed (st : AppState) (s m : Nat)
    (hwf : votesWF st.votes) :
    (checkMatch st.votes s m = true ↔
      ∃ u₁ u₂, u₁ ≠ u₂ ∧ hasYesVote st.votes s u₁ m ∧ hasYesVote st.votes s u₂ m)
    ∧ ∀ item ∈ st.media,
        (item ∈ getMatchesForSession st s ↔ checkMatch st.votes s item.id = true) := by
  constructor
  · set p : Vote → Bool :=
      fun r => r.sessionId == s && r.mediaId == m && r.vote == "yes" with hp
    have hkeys : ((st.votes.filter p).map Vote.key).Nodup :=
      hwf.sublist ((List.filter_sublist st.votes).map Vote.key)
    have hmem_fields : ∀ r ∈ st.votes.filter p,
        r.sessionId = s ∧ r.mediaId = m ∧ r.vote = "yes" := by
      intro r hr
      have := (List.mem_filter.mp hr).2
      simpa [hp, and_assoc] using this
    constructor
    · intro hcm
      have hlen : 2 ≤ (st.votes.filter p).length := by
        have := of_decide_eq_true hcm
        simpa [countYesVotes, hp] using this
      rcases hl : st.votes.filter p with _ | ⟨a, _ | ⟨b, t⟩⟩
      · rw [hl] at hlen; simp at hlen
      · rw [hl] at hlen; simp at hlen
      · have hamem : a ∈ st.votes.filter p := by rw [hl]; simp
        have hbmem : b ∈ st.votes.filter p := by rw [hl]; simp
        obtain ⟨has, ham, hav⟩ := hmem_fields a hamem
        obtain ⟨hbs, hbm, hbv⟩ := hmem_fields b hbmem
        have hkey : a.key ≠ b.key := by
          rw [hl] at hkeys
          simp only [List.map_cons, List.nodup_cons, List.mem_cons] at hkeys
          exact fun h => hkeys.1 (Or.inl h)
        have huser : a.userId ≠ b.userId := by
          intro h
          exact hkey (by simp [Vote.key, has, hbs, ham, hbm, h])
        exact ⟨a.userId, b.userId, huser,
          ⟨a, (List.mem_filter.mp hamem).1, has, rfl, ham, hav⟩,
          ⟨b, (List.mem_filter.mp hbmem).1, hbs, rfl, hbm, hbv⟩⟩
    · rintro ⟨u₁, u₂, hne, ⟨r₁, hr₁mem, hr₁s, hr₁u, hr₁m, hr₁v⟩,
        ⟨r₂, hr₂mem, hr₂s, hr₂u, hr₂m, hr₂v⟩⟩
      have h₁ : r₁ ∈ st.votes.filter p :=
        List.mem_filter.mpr ⟨hr₁mem, by simp [hp, hr₁s, hr₁m, hr₁v]⟩
      have h₂ : r₂ ∈ st.votes.filter p :=
        List.mem_filter.mpr ⟨hr₂mem, by simp [hp, hr₂s, hr₂m, hr₂v]⟩
      have hr12 : r₁ ≠ r₂ := by
        intro h
        exact hne (hr₁u ▸ hr₂u ▸ congrArg Vote.userId h)
      have hlen : 2 ≤ (st.votes.filter p).length :=
        two_le_length_of_mem_ne h₁ h₂ hr12
      exact decide_eq_true (by simpa [countYesVotes, hp] using hlen)
  · intro item _
    rw [checkMatch, getMatchesForSession, mem_sortByTitle, List.mem_filter]
    simp_all

/-- Witness for C1: session 1, media 5, with users 10 and 11 voting
"yes" and user 12 voting "no": the match predicate holds with two
distinct yes-voters, and the media row is listed. -/
theorem checkMatch_two_distinct_iff_listed_witness :
    (∃ u₁ u₂, u₁ ≠ u₂ ∧
      hasYesVote [⟨1, 10, 5, "yes", 0⟩, ⟨1, 11, 5, "yes", 0⟩, ⟨1, 12, 5, "no", 0⟩] 1 u₁ 5 ∧
      hasYesVote [⟨1, 10, 5, "yes", 0⟩, ⟨1, 11, 5, "yes", 0⟩, ⟨1, 12, 5, "no", 0⟩] 1 u₂ 5)
    ∧ (⟨5, 99, "movie", "M", "", 0, 0⟩ : MediaItem) ∈ getMatchesForSession
        ⟨[], [⟨1, 10, 5, "yes", 0⟩, ⟨1, 11, 5, "yes", 0⟩, ⟨1, 12, 5, "no", 0⟩],
         [⟨5, 99, "movie", "M", "", 0, 0⟩]⟩ 1 := by
  have h := checkMatch_two_distinct_iff_listed
    ⟨[], [⟨1, 10, 5, "yes", 0⟩, ⟨1, 11, 5, "yes", 0⟩, ⟨1, 12, 5, "no", 0⟩],
     [⟨5, 99, "movie", "M", "", 0, 0⟩]⟩ 1 5 (by unfold votesWF; decide)
  refine ⟨h.1.mp (by decide), ?_⟩
  exact (h.2 ⟨5, 99, "movie", "M", "", 0, 0⟩ (by decide)).mpr (by decide)

/-- C3: `GetMatchesForSession` returns the qualifying media rows ordered
by title ascending, each exactly once (the `media_items` primary key
makes ids distinct); only "yes" rows are counted toward the threshold —
appending a non-"yes" row never changes a yes-count — a row whose
yes-count is below 2 is absent, and a session with zero votes yields the
empty list. -/
theorem getMatches_sorted_dedup_threshold (st : AppState) (s : Nat)
    (hid : (st.media.map MediaItem.id).Nodup) :
    (getMatchesForSession st s).Pairwise (fun a b => a.title ≤ b.title)
    ∧ (∀ item ∈ st.media, 2 ≤ countYesVotes st.votes s item.id →
        (getMatchesForSession st s).count item = 1)
    ∧ (∀ item : MediaItem, countYesVotes st.votes s item.id < 2 →
        item ∉ getMatchesForSession st s)
    ∧ (∀ (r : Vote) (m : Nat), r.vote ≠ "yes" →
        countYesVotes (st.votes ++ [r]) s m = countYesVotes st.votes s m)
    ∧ ((st.votes.filter fun r => r.sessionId == s) = [] →
        getMatchesForSession st s = []) := by
  refine ⟨pairwise_sortByTitle _, ?_, ?_, ?_, ?_⟩
  · intro item hmem hcnt
    have hfil : (st.media.filter fun it => 2 ≤ countYesVotes st.votes s it.id).Nodup :=
      (List.Nodup.of_map _ hid).filter _
    rw [getMatchesForSession,
      (sortByTitle_perm (st.media.filter fun it =>
        2 ≤ countYesVotes st.votes s it.id)).count_eq]
    exact List.count_eq_one_of_mem hfil
      (List.mem_filter.mpr ⟨hmem, by simpa using hcnt⟩)
  · intro item hcnt hmem
    rw [getMatchesForSession, mem_sortByTitle, List.mem_filter] at hmem
    have := hmem.2
    simp at this
    omega
  · intro r m hr
    have hrb : (r.vote == "yes") = false := by simpa using hr
    simp [countYesVotes, List.filter_append, hrb]
  · intro hz
    have hzero : ∀ m, countYesVotes st.votes s m = 0 := by
      intro m
      rw [countYesVotes, List.length_eq_zero, List.filter_eq_nil_iff]
      intro a ha
      have hs : ¬(a.sessionId == s) = true :=
        List.filter_eq_nil_iff.mp hz a ha
      simp_all
    rw [getMatchesForSession]
    have hfe : (st.media.filter fun it => 2 ≤ countYesVotes st.votes s it.id) = [] := by
      rw [List.filter_eq_nil_iff]
      intro it _
      simp [hzero it.id]
    rw [hfe]
    rfl

/-- Witness for C3: media rows titled "Zulu" (id 5) and "Alpha" (id 6)
each with two yes votes are listed once each, and the list is sorted. -/
theorem getMatches_sorted_dedup_threshold_witness :
    ((getMatchesForSession
        ⟨[], [⟨1, 10, 5, "yes", 0⟩, ⟨1, 11, 5, "yes", 0⟩,
              ⟨1, 10, 6, "yes", 0⟩, ⟨1, 11, 6, "yes", 0⟩],
         [⟨5, 99, "movie", "Zulu", "", 0, 0⟩, ⟨6, 98, "movie", "Alpha", "", 0, 0⟩]⟩ 1).count
      ⟨5, 99, "movie", "Zulu", "", 0, 0⟩ = 1)
    ∧ (getMatchesForSession
        ⟨[], [⟨1, 10, 5, "yes", 0⟩, ⟨1, 11, 5, "yes", 0⟩,
              ⟨1, 10, 6, "yes", 0⟩, ⟨1, 11, 6, "yes", 0⟩],
         [⟨5, 99, "movie", "Zulu", "", 0, 0⟩, ⟨6, 98, "movie", "Alpha", "", 0, 0⟩]⟩ 1).Pairwise
        (fun a b => a.title ≤ b.title) := by
  have h := getMatches_sorted_dedup_threshold
    ⟨[], [⟨1, 10, 5, "yes", 0⟩, ⟨1, 11, 5, "yes", 0⟩,
          ⟨1, 10, 6, "yes", 0⟩, ⟨1, 11, 6, "yes", 0⟩],
     [⟨5, 99, "movie", "Zulu", "", 0, 0⟩, ⟨6, 98, "movie", "Alpha", "", 0, 0⟩]⟩ 1
    (by decide)
  exact ⟨h.2.1 ⟨5, 99, "movie", "Zulu", "", 0, 0⟩ (by decide) (by decide), h.1⟩

/-- C6: `GetLikedMovies` (modelled from the spec, its body being absent
from the sources) returns exactly the distinct titles of media items
with at least one current "yes" vote in the session, sorted
alphabetically, each title exactly once. -/
theorem likedTitles_distinct_sorted (st : AppState) (s : Nat) :
    (getLikedMovies st s).Pairwise (fun a b : String => a ≤ b)
    ∧ (getLikedMovies st s).Nodup
    ∧ ∀ t : String, t ∈ getLikedMovies st s ↔
        ∃ item ∈ st.media, item.title = t ∧ 1 ≤ countYesVotes st.votes s item.id := by
  refine ⟨pairwise_sortStrings _, ?_, ?_⟩
  · exact ((sortStrings_perm _).nodup_iff).mpr (List.nodup_dedup _)
  · intro t
    rw [getLikedMovies, (sortStrings_perm _).mem_iff, List.mem_dedup, List.mem_map]
    constructor
    · rintro ⟨item, hmem, rfl⟩
      have h := List.mem_filter.mp hmem
      exact ⟨item, h.1, rfl, by simpa using h.2⟩
    · rintro ⟨item, hmem, ht, hcnt⟩
      exact ⟨item, List.mem_filter.mpr ⟨hmem, by simpa using hcnt⟩, ht⟩

/-- C4: a cast-vote request whose value is none of "yes" / "no" /
"maybe" is rejected with the invalid-vote-value client error (HTTP 400)
and leaves the whole state — the vote ledger included — unchanged, with
no match query; the three valid values pass the validation. -/
theorem castVote_invalid_value_rejected (st : AppState)
    (sessionId userId mediaId : Nat) (vote : String) (now : Nat)
    (faults : DbFaults)
    (hv : vote ≠ "yes" ∧ vote ≠ "no" ∧ vote ≠ "maybe") :
    castVoteHandler st sessionId userId mediaId vote now faults
      = ⟨.clientError "Vote must be 'yes', 'no', or 'maybe'" 400, st, false⟩
    ∧ validVote "yes" = true ∧ validVote "no" = true ∧ validVote "maybe" = true := by
  have hvv : validVote vote = false := by
    simp [validVote, hv.1, hv.2.1, hv.2.2]
  refine ⟨?_, by decide, by decide, by decide⟩
  unfold castVoteHandler
  simp [hvv]

/-- Witness for C4: the value "YES" (wrong case) is rejected and the
state survives untouched. -/
theorem castVote_invalid_value_rejected_witness :
    castVoteHandler ⟨[⟨1, 10, "active", 0, 0, none⟩], [], []⟩ 1 10 5 "YES" 0
        ⟨false, false, false⟩
      = ⟨.clientError "Vote must be 'yes', 'no', or 'maybe'" 400,
         ⟨[⟨1, 10, "active", 0, 0, none⟩], [], []⟩, false⟩ :=
  (castVote_invalid_value_rejected ⟨[⟨1, 10, "active", 0, 0, none⟩], [], []⟩
    1 10 5 "YES" 0 ⟨false, false, false⟩ (by decide)).1

/-- C5: the session lifecycle is active → completed with completed
terminal: a vote against a session whose status is not "active" is
rejected with a client error and the state (the ledger in particular)
is untouched; completing an already-completed session is a no-op
success returning the same completed row with the table unchanged; and
no cast-vote request ever modifies the sessions table. -/
theorem session_lifecycle_active_completed (st : AppState)
    (sessionId userId mediaId : Nat) (vote : String) (now : Nat)
    (faults : DbFaults) (session : WatchSession)
    (hvalid : validVote vote = true)
    (hlookup : faults.sessionLookupErr = false)
    (hfind : getSessionByID st.sessions sessionId = some session)
    (hstatus : session.status ≠ "active") :
    (castVoteHandler st sessionId userId mediaId vote now faults
      = ⟨.clientError "Session is not active" 400, st, false⟩)
    ∧ (∀ (sessions : List WatchSession) (sid : Nat) (sess : WatchSession),
        (sessions.map WatchSession.id).Nodup →
        getSessionByID sessions sid = some sess →
        sess.status = "completed" →
        completeSession sessions sid = (some sess, sessions))
    ∧ (∀ (st₂ : AppState) (sid uid mid : Nat) (v : String) (n : Nat)
        (f : DbFaults),
        (castVoteHandler st₂ sid uid mid v n f).state.sessions = st₂.sessions) := by
  refine ⟨?_, ?_, ?_⟩
  · have hbne : (session.status != "active") = true := by
      simpa using hstatus
    unfold castVoteHandler
    simp [hvalid, hlookup, hfind, hbne]
  · intro sessions sid sess hnodup hfindx hcomp
    have hsessmem : sess ∈ sessions := by
      unfold getSessionByID at hfindx
      exact List.mem_of_find?_eq_some hfindx
    have hsessid : sess.id = sid := by
      unfold getSessionByID at hfindx
      simpa using List.find?_some hfindx
    have hfix : ∀ x ∈ sessions,
        (if x.id == sid then { x with status := "completed" } else x) = x := by
      intro x hx
      by_cases hxid : x.id == sid
      · have hxid' : x.id = sid := by simpa using hxid
        have hxe : x = sess :=
          List.inj_on_of_nodup_map hnodup hx hsessmem (by rw [hxid', hsessid])
        subst hxe
        obtain ⟨xid, xcr, xst, xca, xua, xco⟩ := x
        simp only at hcomp
        simp [hxid, hcomp]
      · simp [hxid]
    have hmapeq : (sessions.map fun x =>
        if x.id == sid then { x with status := "completed" } else x) = sessions := by
      rw [List.map_congr_left hfix]
      simp
    unfold completeSession getSessionByID at *
    rw [hmapeq]
    simp [hfindx]
  · intro st₂ sid uid mid v n f
    unfold castVoteHandler
    split
    · rfl
    split
    · rfl
    split
    · rfl
    split
    · rfl
    split
    · rfl
    split
    · rfl
    · rfl

/-- Witness for C5: a "yes" vote against a completed session is
rejected leaving the state intact, and re-completing that session
succeeds without changing the table. -/
theorem session_lifecycle_active_completed_witness :
    (castVoteHandler ⟨[⟨1, 10, "completed", 0, 0, none⟩], [], []⟩ 1 10 5 "yes" 0
        ⟨false, false, false⟩
      = ⟨.clientError "Session is not active" 400,
         ⟨[⟨1, 10, "completed", 0, 0, none⟩], [], []⟩, false⟩)
    ∧ completeSession [⟨1, 10, "completed", 0, 0, none⟩] 1
      = (some ⟨1, 10, "completed", 0, 0, none⟩, [⟨1, 10, "completed", 0, 0, none⟩]) := by
  have h := session_lifecycle_active_completed
    ⟨[⟨1, 10, "completed", 0, 0, none⟩], [], []⟩ 1 10 5 "yes" 0
    ⟨false, false, false⟩ ⟨1, 10, "completed", 0, 0, none⟩
    (by decide) rfl (by decide) (by decide)
  exact ⟨h.1, h.2.1 [⟨1, 10, "completed", 0, 0, none⟩] 1
    ⟨1, 10, "completed", 0, 0, none⟩ (by decide) (by decide) rfl⟩

/-- C10: for a "yes" vote whose upsert succeeds, a failing match-count
query is swallowed — the endpoint still answers success with
`is_match = false`, whatever the actual count is; for "no" and "maybe"
votes `is_match` is false and the count query is never issued; and when
the query succeeds for a "yes" vote, `is_match` is the just-committed
count check. -/
theorem yes_match_check_error_soft (st : AppState)
    (sessionId userId mediaId : Nat) (now : Nat) (faults : DbFaults)
    (session : WatchSession)
    (hlookup : faults.sessionLookupErr = false)
    (hfind : getSessionByID st.sessions sessionId = some session)
    (hactive : session.status = "active")
    (hcast : faults.castErr = false) :
    (faults.checkMatchErr = true →
      castVoteHandler st sessionId userId mediaId "yes" now faults
        = ⟨.ok true false,
           { st with votes := castVote st.votes sessionId userId mediaId "yes" now },
           true⟩)
    ∧ (∀ v, (v = "no" ∨ v = "maybe") →
        castVoteHandler st sessionId userId mediaId v now faults
          = ⟨.ok true false,
             { st with votes := castVote st.votes sessionId userId mediaId v now },
             false⟩)
    ∧ (faults.checkMatchErr = false →
        castVoteHandler st sessionId userId mediaId "yes" now faults
          = ⟨.ok true
               (checkMatch (castVote st.votes sessionId userId mediaId "yes" now)
                 sessionId mediaId),
             { st with votes := castVote st.votes sessionId userId mediaId "yes" now },
             true⟩) := by
  have hbne : (session.status != "active") = false := by
    simp [hactive]
  refine ⟨?_, ?_, ?_⟩
  · intro herr
    unfold castVoteHandler
    simp [validVote, hlookup, hfind, hbne, hcast, herr]
  · rintro v (rfl | rfl) <;>
      (unfold castVoteHandler; simp [validVote, hlookup, hfind, hbne, hcast])
  · intro hok
    unfold castVoteHandler
    simp [validVote, hlookup, hfind, hbne, hcast, hok]

/-- Witness for C10: user 10's "yes" on media 5 actually completes a
match (user 99 already voted "yes"), yet with the count query failing
the response is success with `is_match = false`. -/
theorem yes_match_check_error_soft_witness :
    checkMatch (castVote [⟨1, 99, 5, "yes", 0⟩] 1 10 5 "yes" 1) 1 5 = true
    ∧ castVoteHandler
        ⟨[⟨1, 10, "active", 0, 0, none⟩], [⟨1, 99, 5, "yes", 0⟩], []⟩
        1 10 5 "yes" 1 ⟨false, false, true⟩
      = ⟨.ok true false,
         ⟨[⟨1, 10, "active", 0, 0, none⟩],
          castVote [⟨1, 99, 5, "yes", 0⟩] 1 10 5 "yes" 1, []⟩, true⟩ := by
  have h := yes_match_check_error_soft
    ⟨[⟨1, 10, "active", 0, 0, none⟩], [⟨1, 99, 5, "yes", 0⟩], []⟩
    1 10 5 1 ⟨false, false, true⟩ ⟨1, 10, "active", 0, 0, none⟩
    rfl (by decide) rfl rfl
  exact ⟨by decide, h.1 rfl⟩

/-- C7: when the session has no liked titles the orchestrator returns
the empty recommendation list successfully without ever invoking the
oracle — which would itself reject the empty input list. -/
theorem empty_liked_short_circuit (st : AppState) (sessionId : Nat)
    (resp : OracleResponse) (env : Nat → Int → CandidateStep)
    (h : getLikedMovies st sessionId = []) :
    generateRecommendations st sessionId resp env = (.ok [], false)
    ∧ ∀ r' : OracleResponse,
        clientGetRecommendations [] r' = .error "no liked movies provided" := by
  constructor
  · unfold generateRecommendations
    simp [h]
  · intro r'
    simp [clientGetRecommendations]

/-- Witness for C7: the empty store short-circuits. -/
theorem empty_liked_short_circuit_witness :
    generateRecommendations ⟨[], [], []⟩ 1 .networkFailure
      (fun _ _ => ⟨.ok none, .error (), .error (), .ok none⟩) = (.ok [], false) :=
  (empty_liked_short_circuit ⟨[], [], []⟩ 1 .networkFailure
    (fun _ _ => ⟨.ok none, .error (), .error (), .ok none⟩) (by decide)).1

/-- C8: with a non-empty liked set, any failing oracle exchange —
network error, non-200 status, unusable body, or a body parsing to zero
candidate ids — makes `GenerateRecommendations` fail as a whole; each
of those four outcomes is indeed an error of the oracle client. -/
theorem oracle_failure_hard_error (st : AppState) (sessionId : Nat)
    (env : Nat → Int → CandidateStep) (resp : OracleResponse) (e : String)
    (hne : getLikedMovies st sessionId ≠ [])
    (herr : clientGetRecommendations (getLikedMovies st sessionId) resp
      = .error e) :
    generateRecommendations st sessionId resp env
      = (.error ("failed to get openai recommendations: " ++ e), true)
    ∧ (∀ (liked : List String) (code : Nat),
        (∃ e₁, clientGetRecommendations liked .networkFailure = .error e₁)
        ∧ (∃ e₂, clientGetRecommendations liked (.httpError code) = .error e₂)
        ∧ (∃ e₃, clientGetRecommendations liked .badBody = .error e₃)
        ∧ (∃ e₄, clientGetRecommendations liked (.ids []) = .error e₄)) := by
  constructor
  · have hne' : (getLikedMovies st sessionId).isEmpty = false := by
      cases hl : getLikedMovies st sessionId with
      | nil => exact absurd hl hne
      | cons a t => rfl
    unfold generateRecommendations
    simp [hne', herr]
  · intro liked code
    by_cases hl : liked.isEmpty
    · exact ⟨⟨"no liked movies provided", by simp [clientGetRecommendations, hl]⟩,
        ⟨"no liked movies provided", by simp [clientGetRecommendations, hl]⟩,
        ⟨"no liked movies provided", by simp [clientGetRecommendations, hl]⟩,
        ⟨"no liked movies provided", by simp [clientGetRecommendations, hl]⟩⟩
    · exact ⟨⟨"failed to execute request", by simp [clientGetRecommendations, hl]⟩,
        ⟨"API returned status " ++ toString code, by simp [clientGetRecommendations, hl]⟩,
        ⟨"failed to parse TMDB IDs from response", by simp [clientGetRecommendations, hl]⟩,
        ⟨"no TMDB IDs returned", by simp [clientGetRecommendations, hl]⟩⟩

/-- Witness for C8: one liked title and a network failure produce the
hard error. -/
theorem oracle_failure_hard_error_witness :
    generateRecommendations
      ⟨[], [⟨1, 10, 5, "yes", 0⟩], [⟨5, 99, "movie", "M", "", 0, 0⟩]⟩ 1
      .networkFailure (fun _ _ => ⟨.ok none, .error (), .error (), .ok none⟩)
      = (.error ("failed to get openai recommendations: "
          ++ "failed to execute request"), true) := by
  have hl : getLikedMovies
      ⟨[], [⟨1, 10, 5, "yes", 0⟩], [⟨5, 99, "movie", "M", "", 0, 0⟩]⟩ 1 = ["M"] := by
    decide
  have h := oracle_failure_hard_error
    ⟨[], [⟨1, 10, 5, "yes", 0⟩], [⟨5, 99, "movie", "M", "", 0, 0⟩]⟩ 1
    (fun _ _ => ⟨.ok none, .error (), .error (), .ok none⟩) .networkFailure
    "failed to execute request" (by rw [hl]; decide) (by rw [hl]; rfl)
  exact h.1

lemma processCandidates_eq_filterMap (env : Nat → Int → CandidateStep)
    (ids : List Int) (i : Nat) :
    processCandidates env ids i
      = (List.enumFrom i ids).filterMap fun p => processCandidate (env p.1 p.2) := by
  induction ids generalizing i with
  | nil => simp [processCandidates]
  | cons tmdbId rest ih =>
    rw [List.enumFrom]
    rw [List.filterMap_cons]
    unfold processCandidates
    cases h : processCandidate (env i tmdbId) with
    | none => simp [h, ih]
    | some item => simp [h, ih]

/-- C9: on a successful oracle call the candidates are resolved in the
order received, each candidate's inclusion depending only on its own
external outcomes (an in-order `filterMap`); the operation succeeds with
the accumulated list — never longer than the candidate list, and every
candidate that resolves is present — and never errors because some
candidates were skipped. -/
theorem candidate_failure_soft_skip (st : AppState) (sessionId : Nat)
    (env : Nat → Int → CandidateStep) (ids : List Int)
    (hne : getLikedMovies st sessionId ≠ []) (hids : ids ≠ []) :
    generateRecommendations st sessionId (.ids ids) env
      = (.ok ((List.enumFrom 0 ids).filterMap fun p =>
          processCandidate (env p.1 p.2)), true)
    ∧ ((List.enumFrom 0 ids).filterMap fun p =>
        processCandidate (env p.1 p.2)).length ≤ ids.length
    ∧ ∀ p ∈ List.enumFrom 0 ids, ∀ item,
        processCandidate (env p.1 p.2) = some item →
        item ∈ (List.enumFrom 0 ids).filterMap fun q =>
          processCandidate (env q.1 q.2) := by
  refine ⟨?_, ?_, ?_⟩
  · have hne' : (getLikedMovies st sessionId).isEmpty = false := by
      cases hl : getLikedMovies st sessionId with
      | nil => exact absurd hl hne
      | cons a t => rfl
    have hids' : ids.isEmpty = false := by
      cases ids with
      | nil => exact absurd rfl hids
      | cons a t => rfl
    unfold generateRecommendations clientGetRecommendations
    simp [hne', hids', processCandidates_eq_filterMap]
  · calc ((List.enumFrom 0 ids).filterMap fun p =>
          processCandidate (env p.1 p.2)).length
        ≤ (List.enumFrom 0 ids).length := List.length_filterMap_le _ _
      _ = ids.length := by simp
  · intro p hp item hitem
    exact List.mem_filterMap.mpr ⟨p, hp, hitem⟩

/-- Witness for C9: five candidates with the third failing its TMDB
fetch yield a successful batch of four. -/
theorem candidate_failure_soft_skip_witness :
    getLikedMovies ⟨[], [⟨1, 10, 5, "yes", 0⟩],
      [⟨5, 99, "movie", "M", "", 0, 0⟩]⟩ 1 ≠ []
    ∧ ∃ l, generateRecommendations
        ⟨[], [⟨1, 10, 5, "yes", 0⟩], [⟨5, 99, "movie", "M", "", 0, 0⟩]⟩ 1
        (.ids [11, 12, 13, 14, 15])
        (fun i id => if i == 2 then ⟨.ok none, .error (), .error (), .ok none⟩
          else ⟨.ok (some ⟨i, id, "movie", "T", "", 0, 0⟩), .error (), .error (), .ok none⟩)
        = (.ok l, true) ∧ l.length = 4 := by
  have h := candidate_failure_soft_skip
    ⟨[], [⟨1, 10, 5, "yes", 0⟩], [⟨5, 99, "movie", "M", "", 0, 0⟩]⟩ 1
    (fun i id => if i == 2 then ⟨.ok none, .error (), .error (), .ok none⟩
      else ⟨.ok (some ⟨i, id, "movie", "T", "", 0, 0⟩), .error (), .error (), .ok none⟩)
    [11, 12, 13, 14, 15] (by decide) (by decide)
  exact ⟨by decide, _, h.1, by decide⟩

end WouldWatch
